import Mathlib

/-!
Shallow embedding of the valtra validation/transformation library.

Modelling conventions:
- A Go `error` value carries only its message text here, so errors are
  modelled as `String` (the library only ever builds errors with
  `fmt.Errorf` and only their text is observable).
- A Go `string` is modelled as its sequence of runes (`List Nat` of code
  points); `len` on a Go string is UTF-8 byte length, modelled by
  `goLen` summing per-rune UTF-8 sizes.
- Variadic parameters (`name ...string`, `errMssg ...string`) are
  modelled as `List String`.
- Go maps are modelled as association lists; only their entry count is
  observed by the library.
-/

namespace Valtra

/-- A Go string, modelled as its sequence of runes: a rune is a Unicode
code point, written here as a plain `Nat`. -/
abbrev GoStr := List Nat

/-- Embed a Lean string literal as a `GoStr`. -/
def goStr (s : String) : GoStr := s.toList.map Char.toNat

/-- UTF-8 byte size of one rune (Go `len` counts bytes). -/
def runeUtf8Size (n : Nat) : Nat :=
  if n < 0x80 then 1 else if n < 0x800 then 2 else if n < 0x10000 then 3 else 4

/-- Go `len` of a string: total UTF-8 byte count. -/
def goLen (s : GoStr) : Nat := (s.map runeUtf8Size).sum

/-- A Go map, modelled as an association list (only `len` is observed). -/
abbrev GoMap (K V : Type) := List (K × V)

/-- Source `Value` from value.go: holds a value, its name and accumulated errors. -/
structure Value (T : Type) where
  value : T
  name : String
  errs : List String

/-- Source `Collector` from collector.go: accumulates errors from many Values. -/
structure Collector where
  errs : List String

/-- Source `NewCollector` from collector.go. -/
def NewCollector : Collector := ⟨[]⟩

/-- Source `Collector.Errors` from collector.go. -/
def Collector.Errors (c : Collector) : List String := c.errs

/-- Source `Collector.IsValid` from collector.go: true iff no errors collected. -/
def Collector.IsValid (c : Collector) : Bool := c.errs.length == 0

/-- Source `Val` from value.go: wraps a value with an optional name
(default name is "value" when absent or empty). -/
def Val {T : Type} (value : T) (name : List String) : Value T :=
  ⟨value,
   match name with
   | n :: _ => if n ≠ "" then n else "value"
   | [] => "value",
   []⟩

/-- Source `Value.Errors` from value.go. -/
def Value.Errors {T : Type} (v : Value T) : List String := v.errs

/-- Source `Value.IsValid` from value.go: true iff the error list is empty. -/
def Value.IsValid {T : Type} (v : Value T) : Bool := v.errs.length == 0

/-- Loop body of `Value.Validate` (value.go lines 89-98): run one check,
append its error when it produced one. -/
def validateStep {T : Type} (v : Value T) (fn : Value T → Option String) : Value T :=
  match fn v with
  | some err => { v with errs := v.errs ++ [err] }
  | none => v

/-- Source `Value.Validate` from value.go: run every check in order, appending
each produced error; no check is skipped. -/
def Value.Validate {T : Type} (v : Value T)
    (validations : List (Value T → Option String)) : Value T :=
  validations.foldl validateStep v

/-- Loop body of `Value.Transform` (value.go lines 109-120): run one
mapper; on error append it (value kept), on success replace the value. -/
def transformStep {T : Type} (v : Value T) (fn : Value T → T × Option String) : Value T :=
  match fn v with
  | (_, some err) => { v with errs := v.errs ++ [err] }
  | (newVal, none) => { v with value := newVal }

/-- Source `Value.Transform` from value.go: run every mapper in order. -/
def Value.Transform {T : Type} (v : Value T)
    (transformations : List (Value T → T × Option String)) : Value T :=
  transformations.foldl transformStep v

/-- Source `Value.Collect` from value.go: append all of the Value errors onto
the collector and return the held value. State-passing rendering of the
Go pointer mutation: returns the held value together with the updated
collector. -/
def Value.Collect {T : Type} (v : Value T) (c : Collector) : T × Collector :=
  (v.value, ⟨c.errs ++ v.errs⟩)

/-- Execution trace of one `Validate` call: for each check, the state it
received and the outcome it returned, in order. -/
def validateTrace {T : Type} (v : Value T) :
    List (Value T → Option String) → List (Value T × Option String)
  | [] => []
  | fn :: fns => (v, fn v) :: validateTrace (validateStep v fn) fns

/-- Go zero value of a comparable type (`var zero T` in Required). -/
class GoZero (T : Type) where
  zeroVal : T

instance : GoZero Int := ⟨0⟩

instance : GoZero Nat := ⟨0⟩

instance : GoZero GoStr := ⟨[]⟩

instance : GoZero String := ⟨""⟩

/-- The custom-message pattern shared by every validation factory:
`if len(errMssg) > 0 && errMssg[0] != "" { return errMssg[0] }` and
otherwise the default formatted message. -/
def customMsg (errMssg : List String) (deflt : String) : String :=
  match errMssg with
  | m :: _ => if m ≠ "" then m else deflt
  | [] => deflt

/-- Source `Required` from the validations file: errors iff the value equals the
zero value of its type. -/
def Required {T : Type} [DecidableEq T] [GoZero T] (errMssg : List String) :
    Value T → Option String := fun v =>
  if v.value = GoZero.zeroVal then
    some (customMsg errMssg (v.name ++ " is required"))
  else
    none

/-- Source `Max` from the validations file: errors iff `v.value > max`.
Ordered numeric types are modelled by a linear order with printing. -/
def Max {T : Type} [LinearOrder T] [ToString T] (max : T) (errMssg : List String) :
    Value T → Option String := fun v =>
  if max < v.value then
    some (customMsg errMssg (v.name ++ " cannot be larger than " ++ toString max))
  else
    none

/-- Source `Min` from the validations file: errors iff `v.value < min`. -/
def Min {T : Type} [LinearOrder T] [ToString T] (min : T) (errMssg : List String) :
    Value T → Option String := fun v =>
  if v.value < min then
    some (customMsg errMssg (v.name ++ " cannot be smaller than " ++ toString min))
  else
    none

/-- Source `MaxLengthString` from the validations file: errors iff
`len(v.value) > max` (byte length). -/
def MaxLengthString (max : Nat) (errMssg : List String) :
    Value GoStr → Option String := fun v =>
  if max < goLen v.value then
    some (customMsg errMssg (v.name ++ "\x27s length cannot be larger than " ++ toString max))
  else
    none

/-- Source `MaxLengthSlice` from the validations file. -/
def MaxLengthSlice {T : Type} (max : Nat) (errMssg : List String) :
    Value (List T) → Option String := fun v =>
  if max < v.value.length then
    some (customMsg errMssg (v.name ++ "\x27s length cannot be larger than " ++ toString max))
  else
    none

/-- Source `MaxLengthMap` from the validations file. -/
def MaxLengthMap {K V : Type} (max : Nat) (errMssg : List String) :
    Value (GoMap K V) → Option String := fun v =>
  if max < v.value.length then
    some (customMsg errMssg (v.name ++ "\x27s length cannot be larger than " ++ toString max))
  else
    none

/-- Source `MinLengthString` from the validations file: errors iff
`len(v.value) < min` (byte length). -/
def MinLengthString (min : Nat) (errMssg : List String) :
    Value GoStr → Option String := fun v =>
  if goLen v.value < min then
    some (customMsg errMssg (v.name ++ "\x27s length cannot be smaller than " ++ toString min))
  else
    none

/-- Source `MinLengthSlice` from the validations file. -/
def MinLengthSlice {T : Type} (min : Nat) (errMssg : List String) :
    Value (List T) → Option String := fun v =>
  if v.value.length < min then
    some (customMsg errMssg (v.name ++ "\x27s length cannot be smaller than " ++ toString min))
  else
    none

/-- Source `MinLengthMap` from the validations file. -/
def MinLengthMap {K V : Type} (min : Nat) (errMssg : List String) :
    Value (GoMap K V) → Option String := fun v =>
  if v.value.length < min then
    some (customMsg errMssg (v.name ++ "\x27s length cannot be smaller than " ++ toString min))
  else
    none

/-- Unicode letter category, restricted to the fragment exercised here:
ASCII letters, the Latin-1 letters (codes 0xAA, 0xB5, 0xBA and the ranges
0xC0 to 0xFF minus the two arithmetic signs 0xD7 and 0xF7). Every code
point the development evaluates the email check on lies in this fragment,
where this predicate agrees with Unicode. -/
def isUniLetter (n : Nat) : Bool :=
  (65 ≤ n && n ≤ 90) || (97 ≤ n && n ≤ 122) ||
  (n == 0xAA) || (n == 0xB5) || (n == 0xBA) ||
  (0xC0 ≤ n && n ≤ 0xFF && n != 0xD7 && n != 0xF7)

/-- Unicode number category, restricted to the same fragment: the ASCII
digits (the only category-N code points below 0x100). -/
def isUniNumber (n : Nat) : Bool := 48 ≤ n && n ≤ 57

/-- Unicode mark category, restricted to the fragment up to the combining
diacritical block (no code point below 0x300 is a mark). -/
def isUniMark (n : Nat) : Bool := 0x300 ≤ n && n ≤ 0x36F

/-- Character class of the unquoted local part of emailRegex:
letters, numbers, marks and the literals dot, underscore, percent,
plus, hyphen. -/
def isLocalChar (n : Nat) : Bool :=
  isUniLetter n || isUniNumber n || isUniMark n ||
  n == 46 || n == 95 || n == 37 || n == 43 || n == 45

/-- Character class of the domain part of emailRegex: letters, numbers,
marks, dot, hyphen. -/
def isDomainChar (n : Nat) : Bool :=
  isUniLetter n || isUniNumber n || isUniMark n || n == 46 || n == 45

/-- Character class of the top-level label of emailRegex: letters and
marks. -/
def isTldChar (n : Nat) : Bool := isUniLetter n || isUniMark n

/-- Body of the quoted local part of emailRegex: a sequence of tokens,
each either a non-quote character or a backslash-quote pair, with
backtracking over the two alternatives. -/
def quotedBody : List Nat → Bool
  | [] => true
  | 92 :: 34 :: rest => quotedBody rest || quotedBody (34 :: rest)
  | c :: rest => (c != 34) && quotedBody rest

/-- The quoted alternative of the local part of emailRegex: an opening
quote, a body of tokens, a closing quote. -/
def quotedLocal (loc : List Nat) : Bool :=
  2 ≤ loc.length && loc.head? == some 34 && loc.getLast? == some 34 &&
  quotedBody (loc.drop 1).dropLast

/-- Local part of emailRegex: a quoted string or one-or-more characters
of the local class. -/
def localMatch (loc : List Nat) : Bool :=
  quotedLocal loc || (!loc.isEmpty && loc.all isLocalChar)

/-- All ways to split a list into a prefix and a suffix. -/
def splits (s : List Nat) : List (List Nat × List Nat) :=
  (List.range (s.length + 1)).map fun i => (s.take i, s.drop i)

/-- Domain part of emailRegex: one-or-more domain characters, a dot,
then a top-level label of at least two letter or mark characters,
anchored at the end; the existential over splits renders the
backtracking of the regex engine. -/
def domainMatch (dom : List Nat) : Bool :=
  (splits dom).any fun p =>
    match p.2 with
    | 46 :: tld => !p.1.isEmpty && p.1.all isDomainChar &&
        2 ≤ tld.length && tld.all isTldChar
    | _ => false

/-- The language of emailRegex from the validations file:
an anchored match of local part, at sign, domain part. -/
def emailMatch (s : GoStr) : Bool :=
  (splits s).any fun p =>
    match p.2 with
    | 64 :: dom => localMatch p.1 && domainMatch dom
    | _ => false

/-- Source `Email` from the validations file: errors iff the value does not
match emailRegex. -/
def Email (errMssg : List String) : Value GoStr → Option String := fun v =>
  if !emailMatch v.value then
    some (customMsg errMssg (v.name ++ " must be in correct email format"))
  else
    none

/-- Per-rune upper casing, on the ASCII and Latin-1 fragment of the
Unicode simple case mapping used by strings.ToUpper (every rune the
development case-maps lies in this fragment). -/
def runeToUpper (n : Nat) : Nat :=
  if 0x61 ≤ n ∧ n ≤ 0x7A then n - 0x20
  else if 0xE0 ≤ n ∧ n ≤ 0xFE ∧ n ≠ 0xF7 then n - 0x20
  else n

/-- Per-rune lower casing, on the same fragment. -/
def runeToLower (n : Nat) : Nat :=
  if 0x41 ≤ n ∧ n ≤ 0x5A then n + 0x20
  else if 0xC0 ≤ n ∧ n ≤ 0xDE ∧ n ≠ 0xD7 then n + 0x20
  else n

/-- strings.ToUpper on the modelled fragment. -/
def goToUpper (s : GoStr) : GoStr := s.map runeToUpper

/-- strings.ToLower on the modelled fragment. -/
def goToLower (s : GoStr) : GoStr := s.map runeToLower

/-- unicode.IsSpace on the Latin-1 fragment: tab through carriage
return, space, next line, no-break space. -/
def isGoSpace (n : Nat) : Bool :=
  n == 32 || (9 ≤ n && n ≤ 13) || n == 0x85 || n == 0xA0

/-- strings.TrimSpace: drop leading then trailing whitespace. -/
def goTrimSpace (s : GoStr) : GoStr :=
  ((s.dropWhile isGoSpace).reverse.dropWhile isGoSpace).reverse

/-- Source `Uppercase` from the transformations file: never errors. -/
def Uppercase : Value GoStr → GoStr × Option String := fun v =>
  (goToUpper v.value, none)

/-- Source `Lowercase` from the transformations file: never errors. -/
def Lowercase : Value GoStr → GoStr × Option String := fun v =>
  (goToLower v.value, none)

/-- Source `TrimSpace` from the transformations file: never errors. -/
def TrimSpace : Value GoStr → GoStr × Option String := fun v =>
  (goTrimSpace v.value, none)

/-- UTF-8 encoding of one rune, as utf8.EncodeRune lays it out (the
runes this development encodes are all valid scalar values). -/
def utf8EncodeRune (n : Nat) : List Nat :=
  if n < 0x80 then [n]
  else if n < 0x800 then [0xC0 + n / 0x40, 0x80 + n % 0x40]
  else if n < 0x10000 then
    [0xE0 + n / 0x1000, 0x80 + n / 0x40 % 0x40, 0x80 + n % 0x40]
  else
    [0xF0 + n / 0x40000, 0x80 + n / 0x1000 % 0x40, 0x80 + n / 0x40 % 0x40, 0x80 + n % 0x40]

/-- Byte representation of a Go string: the UTF-8 encoding of its
runes. This is the sequence that Go `len` and slicing operate on. -/
def utf8Encode (s : GoStr) : List Nat := (s.map utf8EncodeRune).flatten

/-- Continuation byte test for UTF-8 decoding. -/
def isCont (n : Nat) : Bool := 0x80 ≤ n && n ≤ 0xBF

/-- Accept range of the second byte of a multi-byte encoding, indexed by
the first byte, as in the acceptRanges table of the utf8 package: 0xE0
and 0xF0 exclude overlong forms, 0xED excludes surrogates, 0xF4 caps the
range at U+10FFFF. -/
def accept2 (b b1 : Nat) : Bool :=
  if b == 0xE0 then 0xA0 ≤ b1 && b1 ≤ 0xBF
  else if b == 0xED then 0x80 ≤ b1 && b1 ≤ 0x9F
  else if b == 0xF0 then 0x90 ≤ b1 && b1 ≤ 0xBF
  else if b == 0xF4 then 0x80 ≤ b1 && b1 ≤ 0x8F
  else isCont b1

/-- Rune sequence a Go string ranges over, per utf8.DecodeRuneInString:
a valid encoding yields its rune, and any byte that does not begin a
full valid encoding yields U+FFFD while consuming that one byte. The
fuel argument only bounds the recursion for the termination checker:
every step consumes at least one byte while spending exactly one unit
of fuel, so fuel equal to the byte count is never exhausted. -/
def utf8DecodeFuel : Nat → List Nat → GoStr
  | _, [] => []
  | 0, _ :: _ => []
  | fuel + 1, b :: rest =>
    if b < 0x80 then b :: utf8DecodeFuel fuel rest
    else if 0xC2 ≤ b && b ≤ 0xDF then
      match rest with
      | [] => [0xFFFD]
      | b1 :: rest1 =>
        if isCont b1 then ((b - 0xC0) * 0x40 + (b1 - 0x80)) :: utf8DecodeFuel fuel rest1
        else 0xFFFD :: utf8DecodeFuel fuel rest
    else if 0xE0 ≤ b && b ≤ 0xEF then
      match rest with
      | [] => [0xFFFD]
      | b1 :: rest1 =>
        if accept2 b b1 then
          match rest1 with
          | [] => 0xFFFD :: utf8DecodeFuel fuel rest
          | b2 :: rest2 =>
            if isCont b2 then
              ((b - 0xE0) * 0x1000 + (b1 - 0x80) * 0x40 + (b2 - 0x80))
                :: utf8DecodeFuel fuel rest2
            else 0xFFFD :: utf8DecodeFuel fuel rest
        else 0xFFFD :: utf8DecodeFuel fuel rest
    else if 0xF0 ≤ b && b ≤ 0xF4 then
      match rest with
      | [] => [0xFFFD]
      | b1 :: rest1 =>
        if accept2 b b1 then
          match rest1 with
          | [] => 0xFFFD :: utf8DecodeFuel fuel rest
          | b2 :: rest2 =>
            if isCont b2 then
              match rest2 with
              | [] => 0xFFFD :: utf8DecodeFuel fuel rest
              | b3 :: rest3 =>
                if isCont b3 then
                  ((b - 0xF0) * 0x40000 + (b1 - 0x80) * 0x1000
                    + (b2 - 0x80) * 0x40 + (b3 - 0x80)) :: utf8DecodeFuel fuel rest3
                else 0xFFFD :: utf8DecodeFuel fuel rest
            else 0xFFFD :: utf8DecodeFuel fuel rest
        else 0xFFFD :: utf8DecodeFuel fuel rest
    else 0xFFFD :: utf8DecodeFuel fuel rest

/-- Rune sequence of a byte list under Go decoding. -/
def utf8Decode (l : List Nat) : GoStr := utf8DecodeFuel l.length l

/-- Source `Capitalise` from the transformations file: the source slices
bytes, `strings.ToUpper(v.value[:1]) + strings.ToLower(v.value[1:])`,
with no length guard, which panics on an empty string; the panic is
modelled as `Except.error`. The slices are taken on the byte
representation. strings.ToUpper and strings.ToLower map a string to the
case-mapped image of the rune sequence it decodes to: strings.Map walks
the string with utf8.DecodeRuneInString (each byte outside a valid
encoding decodes to U+FFFD, width one) and re-encodes the mapped runes
as soon as any rune changes or any width-one U+FFFD appears, so the
output bytes are always the encoding of the case-mapped decode; the
result, a valid encoding, is represented here by its rune sequence. -/
def Capitalise (v : Value GoStr) : Except String (GoStr × Option String) :=
  if (utf8Encode v.value).length < 1 then
    Except.error "slice bounds out of range"
  else
    Except.ok (goToUpper (utf8Decode ((utf8Encode v.value).take 1))
      ++ goToLower (utf8Decode ((utf8Encode v.value).drop 1)), none)

theorem validateStep_value {T : Type} (v : Value T) (fn : Value T → Option String) :
    (validateStep v fn).value = v.value := by
  unfold validateStep; cases fn v <;> rfl

theorem validateStep_name {T : Type} (v : Value T) (fn : Value T → Option String) :
    (validateStep v fn).name = v.name := by
  unfold validateStep; cases fn v <;> rfl

theorem validateStep_errs {T : Type} (v : Value T) (fn : Value T → Option String) :
    (validateStep v fn).errs = v.errs ++ (fn v).toList := by
  unfold validateStep; cases fn v <;> simp

theorem validate_cons {T : Type} (v : Value T) (fn : Value T → Option String)
    (fns : List (Value T → Option String)) :
    Value.Validate v (fn :: fns) = Value.Validate (validateStep v fn) fns := rfl

theorem transform_cons {T : Type} (v : Value T) (fn : Value T → T × Option String)
    (fns : List (Value T → T × Option String)) :
    Value.Transform v (fn :: fns) = Value.Transform (transformStep v fn) fns := rfl

/-- C1: in one Validate call every check runs (the trace has one entry
per check, each entry recording the application of that check to the
state it received), the held value and name are unchanged throughout and
every check receives the same held value, and the resulting error list
is the old one with the produced errors appended in supply order. -/
theorem c1_validate_all_checks_run {T : Type} (v : Value T)
    (fns : List (Value T → Option String)) :
    (Value.Validate v fns).value = v.value
  ∧ (Value.Validate v fns).name = v.name
  ∧ (validateTrace v fns).length = fns.length
  ∧ (Value.Validate v fns).errs = v.errs ++ (validateTrace v fns).filterMap Prod.snd
  ∧ ∀ p ∈ (validateTrace v fns).zip fns,
      p.1.1.value = v.value ∧ p.1.1.name = v.name ∧ p.1.2 = p.2 p.1.1 := by
  induction fns generalizing v with
  | nil =>
    exact ⟨rfl, rfl, rfl, by simp [Value.Validate, validateTrace],
      by simp [validateTrace]⟩
  | cons fn fns ih =>
    obtain ⟨h1, h2, h3, h4, h5⟩ := ih (validateStep v fn)
    refine ⟨h1.trans (validateStep_value v fn), h2.trans (validateStep_name v fn),
      ?_, ?_, ?_⟩
    · simpa [validateTrace] using h3
    · show (Value.Validate (validateStep v fn) fns).errs = _
      rw [h4, validateStep_errs]
      simp only [validateTrace, List.filterMap_cons]
      cases h : fn v <;> simp [h]
    · intro p hp
      simp only [validateTrace, List.zip_cons_cons, List.mem_cons] at hp
      rcases hp with rfl | hp
      · exact ⟨rfl, rfl, rfl⟩
      · obtain ⟨g1, g2, g3⟩ := h5 p hp
        exact ⟨g1.trans (validateStep_value v fn), g2.trans (validateStep_name v fn), g3⟩

/-- Witness for C1 at a concrete input: two checks on the wrapped
integer five, the first failing, exercising the per-entry clause at the
head of the trace. -/
theorem c1_validate_all_checks_run_witness :
    ((Val (5:Int) [], Min 10 [] (Val (5:Int) [])), Min 10 []).1.1.value = (5:Int)
  ∧ (Value.Validate (Val (5:Int) []) [Min 10 [], Max 3 []]).value = 5 :=
  ⟨((c1_validate_all_checks_run (Val (5:Int) []) [Min 10 [], Max 3 []]).2.2.2.2
      ((Val (5:Int) [], Min 10 [] (Val (5:Int) [])), Min 10 [])
      (List.Mem.head _)).1,
   (c1_validate_all_checks_run (Val (5:Int) []) [Min 10 [], Max 3 []]).1⟩

/-- C2: in one Transform call, mappers are taken left to right; a mapper
returning no error replaces the held value, so the rest of the chain
receives the updated value; a mapper returning an error has that error
appended, its output discarded and the held value kept, and the rest of
the chain still runs on the unchanged value; an exhausted chain returns
the state unchanged. -/
theorem c2_transform_chain {T : Type} (v : Value T)
    (fn : Value T → T × Option String) (fns : List (Value T → T × Option String))
    (nv : T) (e : String) :
    (fn v = (nv, none) →
      Value.Transform v (fn :: fns) = Value.Transform { v with value := nv } fns)
  ∧ (fn v = (nv, some e) →
      Value.Transform v (fn :: fns) = Value.Transform { v with errs := v.errs ++ [e] } fns)
  ∧ Value.Transform v [] = v := by
  refine ⟨?_, ?_, rfl⟩
  · intro h
    have hs : transformStep v fn = { v with value := nv } := by
      simp [transformStep, h]
    rw [transform_cons, hs]
  · intro h
    have hs : transformStep v fn = { v with errs := v.errs ++ [e] } := by
      simp [transformStep, h]
    rw [transform_cons, hs]

/-- Witness for C2 at concrete inputs: a succeeding built-in mapper and
a failing custom mapper over a concrete string value. -/
theorem c2_transform_chain_witness :
    Value.Transform (Val (goStr "ab") []) [Uppercase]
      = Value.Transform { Val (goStr "ab") [] with value := goStr "AB" } []
  ∧ Value.Transform (Val (goStr "ab") []) [fun w => (w.value, some "boom")]
      = Value.Transform { Val (goStr "ab") [] with errs := [] ++ ["boom"] } [] :=
  ⟨(c2_transform_chain (Val (goStr "ab") []) Uppercase [] (goStr "AB") "x").1 (by decide),
   (c2_transform_chain (Val (goStr "ab") []) (fun w => (w.value, some "boom")) []
      (goStr "ab") "boom").2.1 rfl⟩

/-- C3: Collect hands the collector the whole error list of the wrapped value
appended in order and returns the held value; a fresh collector fed one
value with one error and one with two ends with three errors and is
invalid, while two error-free values leave it valid with no errors. -/
theorem c3_collect_merges {T1 T2 : Type} (v : Value T1) (c : Collector) :
    (Value.Collect v c).1 = v.value
  ∧ (Value.Collect v c).2.errs = c.errs ++ v.errs
  ∧ (∀ (v1 : Value T1) (v2 : Value T2), v1.errs.length = 1 → v2.errs.length = 2 →
      (Value.Collect v2 (Value.Collect v1 NewCollector).2).2.errs.length = 3
    ∧ (Value.Collect v2 (Value.Collect v1 NewCollector).2).2.IsValid = false)
  ∧ (∀ (v1 : Value T1) (v2 : Value T2), v1.errs = [] → v2.errs = [] →
      (Value.Collect v2 (Value.Collect v1 NewCollector).2).2.errs.length = 0
    ∧ (Value.Collect v2 (Value.Collect v1 NewCollector).2).2.IsValid = true) := by
  refine ⟨rfl, rfl, ?_, ?_⟩
  · intro v1 v2 h1 h2
    constructor
    · simp [Value.Collect, NewCollector, h1, h2]
    · simp [Value.Collect, NewCollector, Collector.IsValid, h1, h2]
  · intro v1 v2 h1 h2
    simp [Value.Collect, NewCollector, Collector.IsValid, h1, h2]

/-- Witness for C3 at concrete inputs: integer and string values
carrying one and two errors, then two clean ones. -/
theorem c3_collect_merges_witness :
    ((Value.Collect (⟨goStr "b", "b", ["e2", "e3"]⟩ : Value GoStr)
        (Value.Collect (⟨(0:Int), "a", ["e1"]⟩ : Value Int) NewCollector).2).2.errs.length = 3
    ∧ (Value.Collect (⟨goStr "b", "b", ["e2", "e3"]⟩ : Value GoStr)
        (Value.Collect (⟨(0:Int), "a", ["e1"]⟩ : Value Int) NewCollector).2).2.IsValid = false)
  ∧ ((Value.Collect (Val (goStr "b") []) (Value.Collect (Val (1:Int) []) NewCollector).2).2.errs.length = 0
    ∧ (Value.Collect (Val (goStr "b") []) (Value.Collect (Val (1:Int) []) NewCollector).2).2.IsValid = true) :=
  ⟨(@c3_collect_merges Int GoStr (⟨(0:Int), "a", ["e1"]⟩ : Value Int) NewCollector).2.2.1
      ⟨(0:Int), "a", ["e1"]⟩ ⟨goStr "b", "b", ["e2", "e3"]⟩ rfl rfl,
   (@c3_collect_merges Int GoStr (⟨(0:Int), "a", ["e1"]⟩ : Value Int) NewCollector).2.2.2
      (Val (1:Int) []) (Val (goStr "b") []) rfl rfl⟩

/-- C4: the check built by Min(m) errors exactly when the value is below
m, the check built by Max(m) errors exactly when the value is above m,
and a value equal to m passes both with no error. -/
theorem c4_min_max_bounds {T : Type} [LinearOrder T] [ToString T]
    (m : T) (msgs : List String) (v : Value T) :
    ((Min m msgs v).isSome ↔ v.value < m)
  ∧ ((Max m msgs v).isSome ↔ m < v.value)
  ∧ (v.value = m → Min m msgs v = none ∧ Max m msgs v = none) := by
  refine ⟨?_, ?_, ?_⟩
  · unfold Min; split <;> simp [*]
  · unfold Max; split <;> simp [*]
  · intro h; unfold Min Max; simp [h]

/-- Witness for C4 at concrete integers: five against bound ten, and the
boundary case ten against ten. -/
theorem c4_min_max_bounds_witness :
    ((Min (10:Int) [] (Val (5:Int) [])).isSome ↔ (5:Int) < 10)
  ∧ (Min (10:Int) [] (Val (10:Int) []) = none ∧ Max (10:Int) [] (Val (10:Int) []) = none) :=
  ⟨(c4_min_max_bounds (10:Int) [] (Val (5:Int) [])).1,
   (c4_min_max_bounds (10:Int) [] (Val (10:Int) [])).2.2 rfl⟩

/-- C5: with no custom message, validating a zero value with Required
yields exactly one error reading name plus " is required", and
validating a non-zero value yields no error. -/
theorem c5_required_zero {T : Type} [DecidableEq T] [GoZero T]
    (x : T) (names : List String) :
    (x = GoZero.zeroVal →
      (Value.Validate (Val x names) [Required []]).errs
        = [(Val x names).name ++ " is required"])
  ∧ (x ≠ GoZero.zeroVal → (Value.Validate (Val x names) [Required []]).errs = []) := by
  constructor <;> intro h
  · show (validateStep (Val x names) (Required [])).errs = _
    have hr : Required [] (Val x names) = some ((Val x names).name ++ " is required") := by
      unfold Required
      rw [if_pos (show (Val x names).value = GoZero.zeroVal from h)]
      rfl
    rw [validateStep_errs, hr]
    rfl
  · show (validateStep (Val x names) (Required [])).errs = _
    have hr : Required [] (Val x names) = none := by
      unfold Required
      exact if_neg (show ¬(Val x names).value = GoZero.zeroVal from h)
    rw [validateStep_errs, hr]
    rfl

/-- Witness for C5 at concrete integers: zero is rejected with the
default message, five passes. -/
theorem c5_required_zero_witness :
    (Value.Validate (Val (0:Int) []) [Required []]).errs
      = [(Val (0:Int) []).name ++ " is required"]
  ∧ (Value.Validate (Val (5:Int) []) [Required []]).errs = [] :=
  ⟨(c5_required_zero (0:Int) []).1 rfl,
   (c5_required_zero (5:Int) []).2 (by decide)⟩

theorem customMsg_cons {m : String} (hm : m ≠ "") (d : String) : customMsg [m] d = m := by
  simp [customMsg, hm]

theorem iteCustom {m : String} {c : Prop} [Decidable c] (d : String) (hm : m ≠ "") :
    (if c then some (customMsg [m] d) else none) = none
  ∨ (if c then some (customMsg [m] d) else none) = some m := by
  split
  · right; rw [customMsg_cons hm]
  · left; rfl

/-- C6: every validation factory given a non-empty custom message either
passes or fails with exactly that message, with no interpolation. -/
theorem c6_custom_message {A B C K V : Type} [DecidableEq A] [GoZero A]
    [LinearOrder B] [ToString B] (m : String) (hm : m ≠ "") :
    (∀ v : Value A, Required [m] v = none ∨ Required [m] v = some m)
  ∧ (∀ (b : B) (v : Value B), Min b [m] v = none ∨ Min b [m] v = some m)
  ∧ (∀ (b : B) (v : Value B), Max b [m] v = none ∨ Max b [m] v = some m)
  ∧ (∀ (n : Nat) (v : Value GoStr),
      MinLengthString n [m] v = none ∨ MinLengthString n [m] v = some m)
  ∧ (∀ (n : Nat) (v : Value GoStr),
      MaxLengthString n [m] v = none ∨ MaxLengthString n [m] v = some m)
  ∧ (∀ (n : Nat) (v : Value (List C)),
      MinLengthSlice n [m] v = none ∨ MinLengthSlice n [m] v = some m)
  ∧ (∀ (n : Nat) (v : Value (List C)),
      MaxLengthSlice n [m] v = none ∨ MaxLengthSlice n [m] v = some m)
  ∧ (∀ (n : Nat) (v : Value (GoMap K V)),
      MinLengthMap n [m] v = none ∨ MinLengthMap n [m] v = some m)
  ∧ (∀ (n : Nat) (v : Value (GoMap K V)),
      MaxLengthMap n [m] v = none ∨ MaxLengthMap n [m] v = some m)
  ∧ (∀ v : Value GoStr, Email [m] v = none ∨ Email [m] v = some m) :=
  ⟨fun _ => iteCustom _ hm,
   fun _ _ => iteCustom _ hm,
   fun _ _ => iteCustom _ hm,
   fun _ _ => iteCustom _ hm,
   fun _ _ => iteCustom _ hm,
   fun _ _ => iteCustom _ hm,
   fun _ _ => iteCustom _ hm,
   fun _ _ => iteCustom _ hm,
   fun _ _ => iteCustom _ hm,
   fun _ => iteCustom _ hm⟩

/-- Witness for C6 at a concrete input: Required with the custom message
on the zero integer. -/
theorem c6_custom_message_witness :
    Required ["custom"] (Val (0:Int) []) = none
  ∨ Required ["custom"] (Val (0:Int) []) = some "custom" :=
  (@c6_custom_message Int Int Int Int Int _ _ _ _ "custom" (by decide)).1 (Val (0:Int) [])

theorem utf8EncodeRune_ne_nil (n : Nat) : utf8EncodeRune n ≠ [] := by
  unfold utf8EncodeRune
  split_ifs <;> simp

theorem utf8Encode_ne_nil {s : GoStr} (h : s ≠ []) : utf8Encode s ≠ [] := by
  cases s with
  | nil => exact absurd rfl h
  | cons c t =>
    simp only [utf8Encode, List.map_cons, List.flatten_cons]
    intro hcontra
    exact utf8EncodeRune_ne_nil c (List.append_eq_nil.mp hcontra).1

/-- C7: on any non-empty string the mapper built by Capitalise keeps its
unguarded one-byte slice in bounds and returns, with no error, the
upper-cased first storage unit (the first byte, as strings.ToUpper
renders it) followed by the lower-cased remaining bytes; the empty
string is the one input outside this contract. -/
theorem c7_capitalise_nonempty (v : Value GoStr) (h : v.value ≠ []) :
    Capitalise v
      = Except.ok (goToUpper (utf8Decode ((utf8Encode v.value).take 1))
          ++ goToLower (utf8Decode ((utf8Encode v.value).drop 1)), none) := by
  unfold Capitalise
  rw [if_neg]
  simp [Nat.lt_one_iff, List.length_eq_zero, utf8Encode_ne_nil h]

/-- Witness for C7 at a concrete input: the non-empty string jOHN. -/
theorem c7_capitalise_nonempty_witness :
    Capitalise (Val (goStr "jOHN") [])
      = Except.ok (goToUpper (utf8Decode ((utf8Encode (Val (goStr "jOHN") []).value).take 1))
          ++ goToLower (utf8Decode ((utf8Encode (Val (goStr "jOHN") []).value).drop 1)), none) :=
  c7_capitalise_nonempty (Val (goStr "jOHN") []) (by decide)

/-- C8: the Email check accepts test@example.com, rejects not-an-email,
and accepts tëst@example.com whose local part is non-ASCII. -/
theorem c8_email_examples :
    Email [] (Val (goStr "test@example.com") []) = none
  ∧ (Email [] (Val (goStr "not-an-email") [])).isSome = true
  ∧ Email [] (Val (goStr "tëst@example.com") []) = none := by
  decide

theorem runeToUpper_idem (n : Nat) : runeToUpper (runeToUpper n) = runeToUpper n := by
  unfold runeToUpper
  split_ifs <;> omega

theorem goToUpper_idem (s : GoStr) : goToUpper (goToUpper s) = goToUpper s := by
  induction s with
  | nil => rfl
  | cons c t ih =>
    simp only [goToUpper, List.map_cons] at *
    rw [runeToUpper_idem, ih]

/-- Bool test that a string has no leading and no trailing whitespace. -/
def noEdgeSpace (s : GoStr) : Bool :=
  (match s.head? with
   | some c => !isGoSpace c
   | none => true) &&
  (match s.getLast? with
   | some c => !isGoSpace c
   | none => true)

theorem dropWhile_of_head {s : GoStr}
    (h : (match s.head? with | some c => !isGoSpace c | none => true) = true) :
    s.dropWhile isGoSpace = s := by
  cases s with
  | nil => rfl
  | cons c t =>
    simp only [List.head?_cons, Bool.not_eq_true'] at h
    simp [List.dropWhile_cons, h]

theorem goTrimSpace_noop (s : GoStr) (h : noEdgeSpace s = true) : goTrimSpace s = s := by
  unfold goTrimSpace
  unfold noEdgeSpace at h
  rw [Bool.and_eq_true] at h
  rw [dropWhile_of_head h.1]
  have h2 : s.reverse.dropWhile isGoSpace = s.reverse := by
    apply dropWhile_of_head
    rw [List.head?_reverse]
    exact h.2
  rw [h2, List.reverse_reverse]

/-- C9: Uppercase and TrimSpace never produce an error, applying
Uppercase twice gives the same held value as applying it once, and
TrimSpace leaves a string with no leading or trailing whitespace
unchanged. -/
theorem c9_pure_builtins (v : Value GoStr) :
    (Uppercase v).2 = none
  ∧ (TrimSpace v).2 = none
  ∧ (Value.Transform v [Uppercase, Uppercase]).value = (Value.Transform v [Uppercase]).value
  ∧ (noEdgeSpace v.value = true → (TrimSpace v).1 = v.value) := by
  refine ⟨rfl, rfl, ?_, ?_⟩
  · show (transformStep (transformStep v Uppercase) Uppercase).value
      = (transformStep v Uppercase).value
    simp only [transformStep, Uppercase]
    exact goToUpper_idem v.value
  · intro h
    exact goTrimSpace_noop v.value h

/-- Witness for C9 at a concrete input: the already-trimmed string hi. -/
theorem c9_pure_builtins_witness :
    (TrimSpace (Val (goStr "hi") [])).1 = (Val (goStr "hi") []).value :=
  (c9_pure_builtins (Val (goStr "hi") [])).2.2.2 (by decide)

/-- C10: within one Validate call a later check receives the state with
the errors appended by earlier checks of the same call, on which
IsValid already reports false, while the held value it sees is
unchanged; within one Transform call a later mapper likewise runs on
the state carrying the earlier error. -/
theorem c10_batch_state_visible {T : Type} (v : Value T)
    (f g : Value T → Option String) (e : String)
    (mp np : Value T → T × Option String) (nv : T) (e2 : String) :
    (f v = some e →
        (Value.Validate v [f, g]).errs
          = (v.errs ++ [e]) ++ (g { v with errs := v.errs ++ [e] }).toList
      ∧ Value.IsValid { v with errs := v.errs ++ [e] } = false
      ∧ ({ v with errs := v.errs ++ [e] } : Value T).value = v.value)
  ∧ (mp v = (nv, some e2) →
      Value.Transform v [mp, np] = Value.Transform { v with errs := v.errs ++ [e2] } [np]) := by
  constructor
  · intro h
    have hs : validateStep v f = { v with errs := v.errs ++ [e] } := by
      simp [validateStep, h]
    refine ⟨?_, ?_, rfl⟩
    · show (validateStep (validateStep v f) g).errs = _
      rw [validateStep_errs, hs]
    · simp [Value.IsValid]
  · intro h
    have hs : transformStep v mp = { v with errs := v.errs ++ [e2] } := by
      simp [transformStep, h]
    rw [transform_cons, hs]

/-- Witness for C10 at concrete inputs: a failing Min followed by a
second check, and a failing custom mapper followed by Uppercase. -/
theorem c10_batch_state_visible_witness :
    ((Value.Validate (Val (5:Int) []) [Min 10 [], Max 3 []]).errs
        = ([] ++ ["value cannot be smaller than 10"])
          ++ (Max 3 [] { Val (5:Int) [] with
                errs := [] ++ ["value cannot be smaller than 10"] }).toList
      ∧ Value.IsValid { Val (5:Int) [] with
            errs := [] ++ ["value cannot be smaller than 10"] } = false
      ∧ ({ Val (5:Int) [] with
            errs := [] ++ ["value cannot be smaller than 10"] } : Value Int).value
          = (Val (5:Int) []).value)
  ∧ Value.Transform (Val (goStr "ab") []) [fun w => (w.value, some "boom"), Uppercase]
      = Value.Transform { Val (goStr "ab") [] with errs := [] ++ ["boom"] } [Uppercase] :=
  ⟨(c10_batch_state_visible (Val (5:Int) []) (Min 10 []) (Max 3 [])
      "value cannot be smaller than 10" (fun w => (w.value, none)) (fun w => (w.value, none))
      (5:Int) "x").1 (by decide),
   (c10_batch_state_visible (Val (goStr "ab") []) (fun _ => none) (fun _ => none) "x"
      (fun w => (w.value, some "boom")) Uppercase (goStr "ab") "boom").2 rfl⟩

end Valtra
